import Mathlib

/-!
Verification development for the single-file career-planning application
(`30licheng.py`).  The Python source is shallowly embedded: strings are
`List Char`, the SQLAlchemy-backed store is an explicit `AppState` record,
and each Streamlit action handler becomes a pure state-transition function
taking the outcome of its external LLM call as an argument
(`Except Unit Str`: `.error` models a raised `APITimeoutError` or other
exception, `.ok` models the returned text).  `json.loads` is external
library code and is modelled as an abstract parameter
`loads : Str → Option JVal`.
-/

set_option autoImplicit false

namespace Licheng

/-- Python strings are embedded as lists of characters. -/
abbrev Str := List Char

/-- Whitespace characters matched by the regex class `\s` (and stripped by
`str.strip()`) on the ASCII range used here. -/
def wsChar (c : Char) : Bool :=
  c == ' ' || c == '\t' || c == '\n' || c == '\r' || c == '\x0b' || c == '\x0c'

/-- Drop leading whitespace. -/
def dropLeadingWs : Str → Str
  | [] => []
  | c :: cs => if wsChar c then dropLeadingWs cs else c :: cs

/-- Strip whitespace from both ends, as `str.strip()` / the `\s*` groups of
the extraction regex do. -/
def trimWs (s : Str) : Str :=
  (dropLeadingWs ((dropLeadingWs s).reverse)).reverse

/-- `startsWith pat xs` tests whether `pat` is a prefix of `xs`. -/
def startsWith : Str → Str → Bool
  | [], _ => true
  | _ :: _, [] => false
  | p :: ps, c :: cs => p == c && startsWith ps cs

/-- `splitFirst pat xs` finds the first occurrence of `pat` in `xs` and
returns the part before it and the part after it (the embedding of
`re.search` for a literal pattern / `str.split(pat)[0]`). -/
def splitFirst (pat : Str) : Str → Option (Str × Str)
  | [] => if pat.isEmpty then some ([], []) else none
  | c :: cs =>
    if startsWith pat (c :: cs) then some ([], List.drop pat.length (c :: cs))
    else (splitFirst pat cs).map (fun p => (c :: p.1, p.2))

/-- The opening fence of a JSON block in an LLM response. -/
def opentag : Str := "```json".toList

/-- The closing fence of a JSON block. -/
def closetag : Str := "```".toList

/-- Embedding of `extract_json_from_llm` (source lines 344-352):
`re.search` for the pattern between the first occurrence of the opening
fence and the next closing fence (the regex's surrounding greedy and lazy
whitespace groups amount to stripping the captured content), then
`json.loads` on the captured text (modelled by the abstract `loads`,
whose `none` result is the swallowed `json.JSONDecodeError`). -/
def extract_json_from_llm {J : Type} (loads : Str → Option J) (text : Str) : Option J :=
  match splitFirst opentag text with
  | none => none
  | some (_, rest) =>
    match splitFirst closetag rest with
    | none => none
    | some (mid, _) => loads (trimWs mid)

/-- The part of a string before the first occurrence of `pat` (the whole
string when `pat` does not occur): `s.split(pat)[0]`. -/
def beforeFirst (pat : Str) (xs : Str) : Str :=
  match splitFirst pat xs with
  | none => xs
  | some (a, _) => a

/-- The displayed/persisted text part of a raw LLM response:
`raw.split("```json")[0].strip()`. -/
def textPart (raw : Str) : Str := trimWs (beforeFirst opentag raw)

/-- `pat` occurs as a contiguous substring of `xs`. -/
def occursIn (pat xs : Str) : Prop := ∃ a b, xs = a ++ pat ++ b

/-- `xs` splits as `a ++ pat ++ b` at the first occurrence of `pat`. -/
def firstSplitAt (pat xs a b : Str) : Prop :=
  xs = a ++ pat ++ b ∧ ∀ a' b', xs = a' ++ pat ++ b' → a.length ≤ a'.length

/-- Values produced by `json.loads`: null, booleans, numbers, strings,
arrays and objects (the number type is collapsed to integers, which is all
the claims need). -/
inductive JVal where
  | jnull : JVal
  | jbool : Bool → JVal
  | jnum : Int → JVal
  | jstr : Str → JVal
  | jlist : List JVal → JVal
  | jdict : List (Str × JVal) → JVal

/-- Python truthiness on deserialized JSON values (`not x` in the source is
`!pyFalsy x = false` ... `None`, `False`, `0`, `""`, `[]` and `{}` are
falsy). -/
def pyFalsy : JVal → Bool
  | .jnull => true
  | .jbool b => !b
  | .jnum n => n == 0
  | .jstr s => s.isEmpty
  | .jlist l => l.isEmpty
  | .jdict d => d.isEmpty

/-- `isinstance(x, str)` on a deserialized JSON value. -/
def JVal.isStr : JVal → Bool
  | .jstr _ => true
  | _ => false

/-- Status literal `"researching"` (the column default of
`CareerTarget.status`). -/
def sResearching : Str := "researching".toList

/-- Status literal `"active"`. -/
def sActive : Str := "active".toList

/-- Status literal `"paused"`. -/
def sPaused : Str := "paused".toList

/-- Status literal `"planning_done"`. -/
def sPlanningDone : Str := "planning_done".toList

/-- The fixed single-user identity `"main_user"`. -/
def mainUser : Str := "main_user".toList

/-- Embedding of the `CareerTarget` ORM entity (source lines 297-307).
`status` stays a string, exactly as the `String` column in the source. -/
structure CareerTarget where
  id : Nat
  name : Str
  status : Str
  research_report : Option Str
  research_chart_data : Option JVal
  validation_plan : Option Str
  action_plan : Option JVal
  user_id : Str

/-- Embedding of the `ProgressLog` ORM entity (source lines 309-316): the
target is referenced by name string, not by id. -/
structure ProgressLog where
  id : Nat
  date : Str
  log : Str
  target_name : Str
  user_id : Str

/-- One entry of a per-mode chat transcript. -/
structure ChatMsg where
  role : Str
  content : Str

/-- The persisted store: the career targets, the progress logs, the
per-mode chat history (`User.chat_history`, a JSON dict keyed by mode,
modelled as a total function defaulting to the empty transcript) and the
profile. `nextId` supplies fresh primary keys (`uuid.uuid4` in the
source). -/
structure AppState where
  targets : List CareerTarget
  progress_logs : List ProgressLog
  chat_history : Str → List ChatMsg
  profile_data : Option JVal
  nextId : Nat

/-- Role literal `"user"`. -/
def roleUser : Str := "user".toList

/-- Role literal `"assistant"`. -/
def roleAssistant : Str := "assistant".toList

/-- Chat-history key of mode 1. -/
def mode1Key : Str := "mode1".toList

/-- Chat-history key of mode 2. -/
def mode2Key : Str := "mode2".toList

/-- Chat-history key of mode 3. -/
def mode3Key : Str := "mode3".toList

/-- Chat-history key of mode 4. -/
def mode4Key : Str := "mode4".toList

/-- Embedding of `update_chat_history` (source lines 354-364): read the
mode's transcript (default empty), append the human and the assistant
message, store it back and commit. -/
def update_chat_history (s : AppState) (mode_key human ai : Str) : AppState :=
  { s with chat_history := fun k =>
      if k == mode_key then
        s.chat_history mode_key ++ [⟨roleUser, human⟩, ⟨roleAssistant, ai⟩]
      else s.chat_history k }

/-- Mutate the first element satisfying `p` in place, as the ORM does when
the object returned by `.first()` is modified and committed. -/
def updateFirst {α : Type} (p : α → Bool) (f : α → α) : List α → List α
  | [] => []
  | x :: xs => if p x then f x :: xs else x :: updateFirst p f xs

/-- Remove the first element satisfying `p`, as `db.delete(obj)` removes
the one row identified by its primary key. -/
def removeFirst {α : Type} (p : α → Bool) : List α → List α
  | [] => []
  | x :: xs => if p x then xs else x :: removeFirst p xs

/-- The lookup predicate of `filter_by(name=..., user_id=...)`:
case-sensitive exact string equality on both columns. -/
def targetPred (n uid : Str) (t : CareerTarget) : Bool :=
  t.name == n && t.user_id == uid

/-- `db.query(CareerTarget).filter_by(name=n, user_id=uid).first()`. -/
def findTarget (targets : List CareerTarget) (n uid : Str) : Option CareerTarget :=
  targets.find? (targetPred n uid)

/-- A newly constructed `CareerTarget(name=n, user_id="main_user")`: the
column defaults give status `"researching"` and NULL everywhere else. -/
def fresh_target (idN : Nat) (n : Str) : CareerTarget :=
  { id := idN, name := n, status := sResearching, research_report := none,
    research_chart_data := none, validation_plan := none, action_plan := none,
    user_id := mainUser }

/-- The field writes of the research step (source lines 487-489):
`target.research_report = text; target.research_chart_data = chart;
target.status = "researching"`. -/
def setResearch (t : CareerTarget) (report : Str) (chart : Option JVal) : CareerTarget :=
  { t with research_report := some report, research_chart_data := chart,
           status := sResearching }

/-- Count of stored targets carrying a given name for a given user. -/
def countByName (targets : List CareerTarget) (n uid : Str) : Nat :=
  (targets.filter (targetPred n uid)).length

/-- The mode-1 research chat prompt
`f"请为我研究 '{final_target_job}' 这个职业。"`. -/
def researchHumanMsg (n : Str) : Str :=
  "请为我研究 ".toList ++ ['\x27'] ++ n ++ ['\x27'] ++ " 这个职业。".toList

/-- Embedding of the research branch of `render_mode1` (source lines
471-499): the body of the `try` block after `research_job_service` has
returned.  `svc` is the outcome of `asyncio.run(research_job_service ...)`;
an exception (`.error`) jumps to the `except` handlers before any store
mutation, so the state is returned unchanged.  On success the step splits
the raw text, extracts the chart JSON, upserts the target by
(name, user_id), overwrites its research fields, forces its status to
`"researching"`, commits and appends two chat entries. -/
def render_mode1_research (loads : Str → Option JVal) (s : AppState) (n : Str)
    (svc : Except Unit Str) : AppState :=
  match svc with
  | .error _ => s
  | .ok raw =>
    let text_content := textPart raw
    let chart := extract_json_from_llm loads raw
    let s1 :=
      match findTarget s.targets n mainUser with
      | some _ =>
        let newTargets :=
          updateFirst (targetPred n mainUser)
            (fun t => setResearch t text_content chart) s.targets
        { s with targets := newTargets }
      | none =>
        { s with
          targets := s.targets ++ [setResearch (fresh_target s.nextId n) text_content chart],
          nextId := s.nextId + 1 }
    update_chat_history s1 mode1Key (researchHumanMsg n) text_content

/-- The mode-1 profile chat prompt. -/
def profileHumanMsg : Str := "这是我的个人画像，请分析并生成职业建议。".toList

/-- Embedding of the profile/suggestions branch of `render_mode1` (source
lines 417-440): the profile is committed unconditionally before the LLM is
invoked; on LLM failure the `except` handlers run before any further
persistence, so targets, progress logs and chat history are untouched. -/
def render_mode1_profile (s : AppState) (newProfile : JVal)
    (svc : Except Unit Str) : AppState :=
  let s0 := { s with profile_data := some newProfile }
  match svc with
  | .error _ => s0
  | .ok raw => update_chat_history s0 mode1Key profileHumanMsg raw

/-- Embedding of the validation-plan branch of `render_mode2` (source
lines 573-580): on success the selected target's `validation_plan` is set
and committed; an exception leaves the store untouched. -/
def render_mode2_genplan (s : AppState) (n : Str) (svc : Except Unit Str) : AppState :=
  match svc with
  | .error _ => s
  | .ok plan =>
    let newTargets :=
      updateFirst (targetPred n mainUser)
        (fun t => { t with validation_plan := some plan }) s.targets
    { s with targets := newTargets }

/-- The stored progress-log body `f"【检验反馈】:\n{feedback_text}"`. -/
def feedbackLogText (feedback : Str) : Str := "【检验反馈】:\n".toList ++ feedback

/-- The mode-2 feedback chat prompt. -/
def feedbackHumanMsg (n feedback : Str) : Str :=
  "这是我关于“".toList ++ n ++ "”的检验反馈：\n".toList ++ feedback

/-- Embedding of the feedback branch of `render_mode2` (source lines
592-609): the analysis LLM call runs first; on success one `ProgressLog`
row is added and two chat entries appended (committed together); an
exception leaves the store untouched. -/
def render_mode2_feedback (s : AppState) (n feedback date : Str) (newLogId : Nat)
    (svc : Except Unit Str) : AppState :=
  match svc with
  | .error _ => s
  | .ok analysis =>
    let s1 := { s with progress_logs :=
      s.progress_logs ++ [⟨newLogId, date, feedbackLogText feedback, n, mainUser⟩] }
    update_chat_history s1 mode2Key (feedbackHumanMsg n feedback) analysis

/-- Embedding of the activate/pause buttons of `render_mode2` (source
lines 621-633): an unconditional status write on the selected target. -/
def set_target_status (s : AppState) (n newStatus : Str) : AppState :=
  let newTargets :=
    updateFirst (targetPred n mainUser)
      (fun t => { t with status := newStatus }) s.targets
  { s with targets := newTargets }

/-- Embedding of the abandon button of `render_mode2` (source lines
635-638): `db.delete(target); db.commit()` removes the one target row and
nothing else. -/
def delete_target (s : AppState) (tid : Nat) : AppState :=
  { s with targets := removeFirst (fun t => t.id == tid) s.targets }

/-- The guard of the mode-3 generation button (source line 667):
`if not target.action_plan or isinstance(target.action_plan, str)`. -/
def offers_action_plan_generation (ap : Option JVal) : Bool :=
  match ap with
  | none => true
  | some v => pyFalsy v || v.isStr

/-- The claim wording of the mode-3 guard: `action_plan` absent or a
string-typed legacy value.  Kept separate from
`offers_action_plan_generation` so the two can be compared. -/
def absentOrLegacyStr (ap : Option JVal) : Bool :=
  match ap with
  | none => true
  | some (.jstr _) => true
  | some _ => false

/-- The mode-3 plan chat prompt. -/
def planHumanMsg (n : Str) : Str :=
  "请为我的目标“".toList ++ n ++ "”生成行动蓝图。".toList

/-- Embedding of the plan-generation branch of `render_mode3` (source
lines 667-680): on success the parsed plan (possibly `none`) is stored,
the status is set to `"planning_done"`, both are committed, and two chat
entries are appended with the raw response; an exception leaves the store
untouched. -/
def render_mode3_genplan (loads : Str → Option JVal) (s : AppState) (n : Str)
    (svc : Except Unit Str) : AppState :=
  match svc with
  | .error _ => s
  | .ok raw_plan =>
    let plan_json := extract_json_from_llm loads raw_plan
    let newTargets :=
      updateFirst (targetPred n mainUser)
        (fun t => { t with action_plan := plan_json, status := sPlanningDone }) s.targets
    let s1 := { s with targets := newTargets }
    update_chat_history s1 mode3Key (planHumanMsg n) raw_plan

/-- The mode-4 trends chat prompt. -/
def trendsHumanMsg (n : Str) : Str :=
  "请为我的目标“".toList ++ n ++ "”生成一份未来趋势洞察报告。".toList

/-- Embedding of the trends branch of `render_mode4` (source lines
731-739): only chat history is persisted; an exception leaves the store
untouched. -/
def render_mode4_trends (s : AppState) (n : Str) (svc : Except Unit Str) : AppState :=
  match svc with
  | .error _ => s
  | .ok report => update_chat_history s mode4Key (trendsHumanMsg n) report

/-- One organic search result, as consumed by the services:
`result.get('snippet')` / `result.get('link')` may be absent. -/
structure SearchResult where
  snippet : Option Str
  link : Option Str

/-- The `"\n\n"` separator appended after each snippet. -/
def newline2 : Str := "\n\n".toList

/-- Snippets contributed by one successful search query (source lines
180-182): the first two organic results, keeping only truthy snippets,
each followed by a blank line. -/
def snippetContrib (results : List SearchResult) : Str :=
  ((results.take 2).filterMap fun r =>
    match r.snippet with
    | some sn => if sn.isEmpty then none else some (sn ++ newline2)
    | none => none).flatten

/-- The accumulated `search_context` of the query loop (source lines
177-184): each query is wrapped in its own `try`/`except`, so a failed
query contributes the empty string and the loop continues. -/
def buildSearchContext (outcomes : List (Except Unit (List SearchResult))) : Str :=
  (outcomes.map fun o =>
    match o with
    | .error _ => ([] : Str)
    | .ok results => snippetContrib results).flatten

/-- The fixed message returned when the LLM is not configured. -/
def svcUnavailLLM : Str := "LLM服务不可用。".toList

/-- The fixed message returned when the search capability is not
configured (source line 174). -/
def svcUnavailSearch : Str := "搜索服务不可用，无法进行深入研究。".toList

/-- The fallback context `'无特定信息'` used when no snippet was found. -/
def noInfo : Str := "无特定信息".toList

/-- Embedding of `research_job_service` (source lines 172-228): the two
configuration guards short-circuit to fixed messages; otherwise the search
context is built best-effort and the LLM is invoked once with it
(`llmCall` abstracts the prompt construction and `chain.ainvoke`; its
`.error` is a raised timeout/service exception). -/
def research_job_service (llmConfigured searchConfigured : Bool)
    (outcomes : List (Except Unit (List SearchResult)))
    (llmCall : Str → Except Unit Str) : Except Unit Str :=
  if !llmConfigured then .ok svcUnavailLLM
  else if !searchConfigured then .ok svcUnavailSearch
  else
    let ctx := buildSearchContext outcomes
    llmCall (if ctx.isEmpty then noInfo else ctx)

/-- Gate of mode 2 (source lines 377 and 781):
`any(t.status in ['researching', 'active', 'paused', 'planning_done'])`. -/
def is_mode2_enabled (targets : List CareerTarget) : Bool :=
  targets.any fun t =>
    [sResearching, sActive, sPaused, sPlanningDone].any fun x => x == t.status

/-- Gate of mode 3 (source lines 378 and 782):
`any(t.status in ['active', 'planning_done'])`. -/
def is_mode3_enabled (targets : List CareerTarget) : Bool :=
  targets.any fun t => [sActive, sPlanningDone].any fun x => x == t.status

/-- Gate of mode 4 (source lines 379 and 783): same condition as mode 3. -/
def is_mode4_enabled (targets : List CareerTarget) : Bool :=
  is_mode3_enabled targets

/-- Mode 1 is unconditionally enabled (source line 382). -/
def mode1_enabled : Bool := true

/-- Concrete JSON parser used only by witnesses: recognises the single
payload `[1]`. -/
def wloads2 : Str → Option Nat :=
  fun s => if s == "[1]".toList then some 1 else none

/-- Concrete LLM response used only by witnesses. -/
def wtext2 : Str := "x```json [1] ```y".toList

/-- Concrete parser (always failing) used only by witnesses. -/
def wloads : Str → Option JVal := fun _ => none

/-- Concrete target name used only by witnesses. -/
def wname : Str := "dev".toList

/-- Concrete empty store used only by witnesses. -/
def wstate : AppState :=
  { targets := [], progress_logs := [], chat_history := fun _ => [],
    profile_data := none, nextId := 0 }

/-- Concrete stored target (already fully planned) used only by
witnesses. -/
def wtarget : CareerTarget :=
  { id := 7, name := wname, status := sPlanningDone,
    research_report := some "old".toList,
    research_chart_data := none,
    validation_plan := some "plan".toList,
    action_plan := some (JVal.jdict [("plan_details".toList, JVal.jstr "d".toList)]),
    user_id := mainUser }

/-- Concrete second target used only by witnesses. -/
def wtargetB : CareerTarget := { wtarget with id := 8, name := "ops".toList }

/-- Concrete one-target store used only by witnesses. -/
def wstate2 : AppState := { wstate with targets := [wtarget] }

/-- Concrete store with two targets and one progress log, used only by
witnesses. -/
def wstate3 : AppState :=
  { wstate with
    targets := [wtarget, wtargetB],
    progress_logs := [⟨0, "d".toList, "l".toList, wname, mainUser⟩] }

theorem updateFirst_length {α : Type} (p : α → Bool) (f : α → α) :
    ∀ l : List α, (updateFirst p f l).length = l.length := by
  intro l
  induction l with
  | nil => rfl
  | cons x xs ih =>
    by_cases hp : p x = true
    · simp [updateFirst, if_pos hp]
    · simp [updateFirst, if_neg hp, ih]

theorem filter_updateFirst_length {α : Type} (p q : α → Bool) (f : α → α)
    (hpf : ∀ x, p (f x) = p x) :
    ∀ l : List α, ((updateFirst q f l).filter p).length = (l.filter p).length := by
  intro l
  induction l with
  | nil => rfl
  | cons x xs ih =>
    by_cases hq : q x = true
    · simp only [updateFirst, if_pos hq, List.filter_cons, hpf x]
      cases hp : p x <;> simp
    · simp only [updateFirst, if_neg hq, List.filter_cons]
      cases hp : p x <;> simp [ih]

theorem find?_updateFirst {α : Type} (p : α → Bool) (f : α → α)
    (hpf : ∀ x, p (f x) = p x) :
    ∀ l : List α, (updateFirst p f l).find? p = (l.find? p).map f := by
  intro l
  induction l with
  | nil => rfl
  | cons x xs ih =>
    by_cases hp : p x = true
    · rw [updateFirst, if_pos hp,
        List.find?_cons_of_pos _ (by rw [hpf x]; exact hp),
        List.find?_cons_of_pos _ hp]
      rfl
    · rw [updateFirst, if_neg hp, List.find?_cons_of_neg _ hp,
        List.find?_cons_of_neg _ hp, ih]

theorem mem_removeFirst {α : Type} (p : α → Bool) (x : α) :
    ∀ l : List α, x ∈ l → p x = false → x ∈ removeFirst p l := by
  intro l
  induction l with
  | nil => intro h; cases h
  | cons y ys ih =>
    intro hmem hpx
    by_cases hy : p y = true
    · rw [removeFirst, if_pos hy]
      cases hmem with
      | head => rw [hpx] at hy; cases hy
      | tail _ h => exact h
    · rw [removeFirst, if_neg hy]
      cases hmem with
      | head => exact List.mem_cons_self _ _
      | tail _ h => exact List.mem_cons_of_mem _ (ih h hpx)

theorem targets_research_ok (loads : Str → Option JVal) (s : AppState) (n raw : Str) :
    (render_mode1_research loads s n (.ok raw)).targets =
      match findTarget s.targets n mainUser with
      | some _ => updateFirst (targetPred n mainUser)
          (fun t => setResearch t (textPart raw) (extract_json_from_llm loads raw)) s.targets
      | none => s.targets ++
          [setResearch (fresh_target s.nextId n) (textPart raw)
            (extract_json_from_llm loads raw)] := by
  cases hf : findTarget s.targets n mainUser <;>
    simp [render_mode1_research, update_chat_history, hf]

theorem targets_mode3_ok (loads : Str → Option JVal) (s : AppState) (n raw : Str) :
    (render_mode3_genplan loads s n (.ok raw)).targets =
      updateFirst (targetPred n mainUser)
        (fun t => { t with action_plan := extract_json_from_llm loads raw,
                           status := sPlanningDone }) s.targets := by
  simp [render_mode3_genplan, update_chat_history]

theorem countByName_research_ok (loads : Str → Option JVal) (s : AppState) (n raw : Str) :
    countByName (render_mode1_research loads s n (.ok raw)).targets n mainUser =
      if countByName s.targets n mainUser = 0 then 1
      else countByName s.targets n mainUser := by
  unfold countByName
  rw [targets_research_ok]
  cases hf : findTarget s.targets n mainUser with
  | some t =>
    have hmem : t ∈ s.targets := List.mem_of_find?_eq_some hf
    have hpt : targetPred n mainUser t = true := List.find?_some hf
    have hne : (s.targets.filter (targetPred n mainUser)).length ≠ 0 := by
      intro hc
      rw [List.length_eq_zero] at hc
      have : t ∈ s.targets.filter (targetPred n mainUser) :=
        List.mem_filter.mpr ⟨hmem, hpt⟩
      rw [hc] at this
      cases this
    rw [if_neg hne]
    exact filter_updateFirst_length (targetPred n mainUser) (targetPred n mainUser)
      (fun u => setResearch u (textPart raw) (extract_json_from_llm loads raw))
      (fun x => rfl) s.targets
  | none =>
    have hzero : (s.targets.filter (targetPred n mainUser)).length = 0 := by
      rw [List.length_eq_zero, List.filter_eq_nil_iff]
      intro a ha
      have := List.find?_eq_none.mp hf
      exact this a ha
    rw [if_pos hzero]
    rw [List.filter_append, List.length_append]
    rw [List.length_eq_zero] at hzero
    rw [hzero]
    simp [targetPred, setResearch, fresh_target]

theorem startsWith_iff (p : Str) : ∀ xs : Str, startsWith p xs = true ↔ ∃ b, xs = p ++ b := by
  induction p with
  | nil =>
    intro xs
    simp [startsWith]
  | cons p ps ih =>
    intro xs
    cases xs with
    | nil =>
      simp [startsWith]
    | cons c cs =>
      simp only [startsWith, Bool.and_eq_true, beq_iff_eq, ih cs]
      constructor
      · rintro ⟨rfl, b, rfl⟩
        exact ⟨b, rfl⟩
      · rintro ⟨b, hb⟩
        rw [List.cons_append] at hb
        cases hb
        exact ⟨rfl, b, rfl⟩

theorem splitFirst_none_iff (pat : Str) (hpat : pat ≠ []) :
    ∀ xs : Str, splitFirst pat xs = none ↔ ¬ occursIn pat xs := by
  intro xs
  induction xs with
  | nil =>
    simp only [splitFirst, List.isEmpty_iff]
    rw [if_neg hpat]
    simp only [true_iff]
    rintro ⟨a, b, hab⟩
    have h2 : a ++ (pat ++ b) = [] := by rw [← List.append_assoc]; exact hab.symm
    exact hpat (List.append_eq_nil.mp (List.append_eq_nil.mp h2).2).1
  | cons c cs ih =>
    by_cases hs : startsWith pat (c :: cs) = true
    · have hocc : occursIn pat (c :: cs) := by
        obtain ⟨b, hb⟩ := (startsWith_iff pat (c :: cs)).mp hs
        exact ⟨[], b, by simpa using hb⟩
      simp only [splitFirst, if_pos hs]
      simp [hocc]
    · have hiff : occursIn pat (c :: cs) ↔ occursIn pat cs := by
        constructor
        · rintro ⟨a, b, hab⟩
          cases a with
          | nil =>
            exfalso
            exact hs ((startsWith_iff pat (c :: cs)).mpr ⟨b, by simpa using hab⟩)
          | cons a0 as =>
            rw [List.cons_append, List.cons_append] at hab
            cases hab
            exact ⟨as, b, rfl⟩
        · rintro ⟨a, b, hab⟩
          exact ⟨c :: a, b, by rw [hab]; rfl⟩
      simp only [splitFirst, if_neg hs]
      cases h : splitFirst pat cs with
      | none =>
        simp only [Option.map_none', hiff]
        exact iff_of_true trivial (ih.mp h)
      | some p =>
        simp only [Option.map_some']
        constructor
        · intro hcontra; cases hcontra
        · intro hno
          exfalso
          have : splitFirst pat cs = none := ih.mpr (fun hc => hno (hiff.mpr hc))
          rw [h] at this; cases this

theorem splitFirst_eq_some (pat : Str) :
    ∀ (xs a b : Str), splitFirst pat xs = some (a, b) → firstSplitAt pat xs a b := by
  intro xs
  induction xs with
  | nil =>
    intro a b h
    simp only [splitFirst, List.isEmpty_iff] at h
    by_cases hpat : pat = []
    · rw [if_pos hpat] at h
      cases h
      subst hpat
      exact ⟨rfl, fun a' b' _ => Nat.zero_le _⟩
    · rw [if_neg hpat] at h; cases h
  | cons c cs ih =>
    intro a b h
    by_cases hs : startsWith pat (c :: cs) = true
    · simp only [splitFirst, if_pos hs] at h
      cases h
      obtain ⟨b0, hb0⟩ := (startsWith_iff pat (c :: cs)).mp hs
      constructor
      · simp [hb0, List.drop_left]
      · intro a' b' _; exact Nat.zero_le _
    · simp only [splitFirst, if_neg hs] at h
      cases hsp : splitFirst pat cs with
      | none => rw [hsp] at h; cases h
      | some p =>
        rw [hsp] at h
        simp only [Option.map_some'] at h
        cases h
        obtain ⟨heq, hmin⟩ := ih p.1 p.2 hsp
        constructor
        · rw [List.cons_append, List.cons_append, ← heq]
        · intro a' b' hab
          cases a' with
          | nil =>
            exfalso
            refine hs ((startsWith_iff pat (c :: cs)).mpr ⟨b', ?_⟩)
            simpa using hab
          | cons a0 as =>
            rw [List.cons_append, List.cons_append] at hab
            cases hab
            simpa using Nat.succ_le_succ (hmin as b' rfl)

theorem splitFirst_of_firstSplitAt (pat : Str) (hpat : pat ≠ []) (xs a b : Str)
    (h : firstSplitAt pat xs a b) : splitFirst pat xs = some (a, b) := by
  cases hsp : splitFirst pat xs with
  | none =>
    exfalso
    exact ((splitFirst_none_iff pat hpat xs).mp hsp) ⟨a, b, h.1⟩
  | some p =>
    obtain ⟨p1, p2⟩ := p
    obtain ⟨heq, hmin⟩ := splitFirst_eq_some pat xs p1 p2 hsp
    have hlen : p1.length = a.length :=
      Nat.le_antisymm (hmin a b h.1) (h.2 p1 p2 heq)
    have hj : p1 = a ∧ pat ++ p2 = pat ++ b := by
      apply List.append_inj
      · rw [← List.append_assoc, ← List.append_assoc, ← heq, h.1]
      · exact hlen
    have hb : p2 = b := List.append_cancel_left hj.2
    rw [hj.1, hb]

/-- C1: for every set of CareerTargets, Mode 1 is always unlocked; Mode 2
is unlocked iff some target has status in researching/active/paused/
planning_done; Mode 3 iff some target has status active or planning_done;
Mode 4 iff Mode 3's condition holds; with no targets, modes 2-4 are all
locked. -/
theorem mode_unlock_spec (targets : List CareerTarget) :
    mode1_enabled = true
    ∧ (is_mode2_enabled targets = true ↔
        ∃ t ∈ targets, t.status ∈ [sResearching, sActive, sPaused, sPlanningDone])
    ∧ (is_mode3_enabled targets = true ↔
        ∃ t ∈ targets, t.status ∈ [sActive, sPlanningDone])
    ∧ is_mode4_enabled targets = is_mode3_enabled targets
    ∧ (targets = [] →
        is_mode2_enabled targets = false ∧ is_mode3_enabled targets = false
        ∧ is_mode4_enabled targets = false) := by
  refine ⟨rfl, ?_, ?_, rfl, ?_⟩
  · simp [is_mode2_enabled, List.any_eq_true]
    constructor
    · rintro ⟨t, hmem, hst⟩
      exact ⟨t, hmem, by tauto⟩
    · rintro ⟨t, hmem, hst⟩
      exact ⟨t, hmem, by tauto⟩
  · simp [is_mode3_enabled, List.any_eq_true]
    constructor
    · rintro ⟨t, hmem, hst⟩
      exact ⟨t, hmem, by tauto⟩
    · rintro ⟨t, hmem, hst⟩
      exact ⟨t, hmem, by tauto⟩
  · rintro rfl
    exact ⟨rfl, rfl, rfl⟩

/-- Witness for C1 at the empty target set: modes 2-4 are locked. -/
theorem mode_unlock_spec_witness :
    is_mode2_enabled [] = false ∧ is_mode3_enabled [] = false
    ∧ is_mode4_enabled [] = false :=
  (mode_unlock_spec []).2.2.2.2 rfl

/-- C2: `extract_json_from_llm` locates the first fenced block tagged
`json` (the stretch of text between the first occurrence of the opening
fence and the next closing fence, stripped of surrounding whitespace) and
returns exactly the result of parsing it: the parsed object when the
contents are valid JSON, `none` when `loads` rejects them, and `none` when
the input contains no complete fenced block.  Being a total function it
never throws. -/
theorem extract_json_from_llm_spec {J : Type} (loads : Str → Option J) (text : Str) :
    ((¬ ∃ pre rest, firstSplitAt opentag text pre rest ∧ occursIn closetag rest) →
      extract_json_from_llm loads text = none)
    ∧ (∀ pre rest mid post, firstSplitAt opentag text pre rest →
        firstSplitAt closetag rest mid post →
        extract_json_from_llm loads text = loads (trimWs mid)) := by
  constructor
  · intro hno
    cases h1 : splitFirst opentag text with
    | none => simp only [extract_json_from_llm, h1]
    | some p =>
      obtain ⟨p1, p2⟩ := p
      cases h2 : splitFirst closetag p2 with
      | none => simp only [extract_json_from_llm, h1, h2]
      | some q =>
        exfalso
        obtain ⟨q1, q2⟩ := q
        exact hno ⟨p1, p2, splitFirst_eq_some _ _ _ _ h1,
          ⟨q1, q2, (splitFirst_eq_some _ _ _ _ h2).1⟩⟩
  · intro pre rest mid post h1 h2
    have e1 : splitFirst opentag text = some (pre, rest) :=
      splitFirst_of_firstSplitAt _ (by decide) _ _ _ h1
    have e2 : splitFirst closetag rest = some (mid, post) :=
      splitFirst_of_firstSplitAt _ (by decide) _ _ _ h2
    simp only [extract_json_from_llm, e1, e2]

/-- Witness for C2: on a concrete response with one fenced block whose
content parses, the extractor returns the parsed value. -/
theorem extract_json_from_llm_spec_witness :
    extract_json_from_llm wloads2 wtext2 = some 1 := by
  have h1 : splitFirst opentag wtext2 = some ("x".toList, " [1] ```y".toList) := by decide
  have h2 : splitFirst closetag " [1] ```y".toList =
      some (" [1] ".toList, "y".toList) := by decide
  have hmain := (extract_json_from_llm_spec wloads2 wtext2).2
    "x".toList " [1] ```y".toList " [1] ".toList "y".toList
    (splitFirst_eq_some _ _ _ _ h1) (splitFirst_eq_some _ _ _ _ h2)
  rw [hmain]
  decide

/-- C3: the research step is an idempotent upsert keyed on the exact
(case-sensitive) target name for the user: starting from a store with at
most one target of name `n`, running the step twice leaves exactly one
target named `n`; when a match exists the step updates it in place (the
target count is unchanged), and otherwise it appends one new record whose
status is `"researching"`. -/
theorem research_upsert_idempotent (loads : Str → Option JVal) (s : AppState)
    (n raw₁ raw₂ : Str) (h : countByName s.targets n mainUser ≤ 1) :
    countByName (render_mode1_research loads
        (render_mode1_research loads s n (.ok raw₁)) n (.ok raw₂)).targets n mainUser = 1
    ∧ (findTarget s.targets n mainUser = none →
        ∃ t, (render_mode1_research loads s n (.ok raw₁)).targets = s.targets ++ [t]
          ∧ t.name = n ∧ t.user_id = mainUser ∧ t.status = sResearching)
    ∧ (∀ t, findTarget s.targets n mainUser = some t →
        (render_mode1_research loads s n (.ok raw₁)).targets.length = s.targets.length) := by
  have hstep1 :
      countByName (render_mode1_research loads s n (.ok raw₁)).targets n mainUser = 1 := by
    rw [countByName_research_ok]
    rcases Nat.le_one_iff_eq_zero_or_eq_one.mp h with h0 | h1
    · rw [if_pos h0]
    · rw [h1]
      simp
  refine ⟨?_, ?_, ?_⟩
  · rw [countByName_research_ok, hstep1]
    simp
  · intro hnone
    refine ⟨setResearch (fresh_target s.nextId n) (textPart raw₁)
      (extract_json_from_llm loads raw₁), ?_, rfl, rfl, rfl⟩
    rw [targets_research_ok, hnone]
  · intro t hsome
    rw [targets_research_ok, hsome]
    exact updateFirst_length _ _ _

/-- Witness for C3: two research runs on the same name from the empty
store leave exactly one target of that name. -/
theorem research_upsert_idempotent_witness :
    countByName (render_mode1_research wloads
        (render_mode1_research wloads wstate wname (.ok "r1".toList))
        wname (.ok "r2".toList)).targets wname mainUser = 1 :=
  (research_upsert_idempotent wloads wstate wname "r1".toList "r2".toList (by decide)).1

/-- C4: in every orchestrator step, the LLM call runs before any store
mutation, so when it fails (raises), the step persists nothing: the
research, validation-plan, feedback, action-plan and trends steps leave
the whole store unchanged, and the profile/suggestions step (which
commits the profile before calling the LLM, a separately specified
unconditional write) leaves targets, progress logs and chat history
unchanged. -/
theorem llm_failure_no_persistence (loads : Str → Option JVal) (s : AppState)
    (n feedback date : Str) (profile : JVal) (newLogId : Nat) (e : Unit) :
    render_mode1_research loads s n (.error e) = s
    ∧ render_mode2_genplan s n (.error e) = s
    ∧ render_mode2_feedback s n feedback date newLogId (.error e) = s
    ∧ render_mode3_genplan loads s n (.error e) = s
    ∧ render_mode4_trends s n (.error e) = s
    ∧ (render_mode1_profile s profile (.error e)).targets = s.targets
    ∧ (render_mode1_profile s profile (.error e)).progress_logs = s.progress_logs
    ∧ (render_mode1_profile s profile (.error e)).chat_history = s.chat_history :=
  ⟨rfl, rfl, rfl, rfl, rfl, rfl, rfl, rfl⟩

/-- C5: each research search query is independently best-effort: a failing
query contributes no snippets to the accumulated context and never aborts
the call — the service behaves exactly as if the failing query were
absent, so the report is still produced from the snippets of the queries
that succeeded. -/
theorem search_query_best_effort (o₁ o₂ : List (Except Unit (List SearchResult)))
    (e : Unit) (llmCall : Str → Except Unit Str) :
    buildSearchContext (o₁ ++ .error e :: o₂) = buildSearchContext (o₁ ++ o₂)
    ∧ research_job_service true true (o₁ ++ .error e :: o₂) llmCall =
        research_job_service true true (o₁ ++ o₂) llmCall := by
  have hb : buildSearchContext (o₁ ++ .error e :: o₂) = buildSearchContext (o₁ ++ o₂) := by
    unfold buildSearchContext
    simp
  exact ⟨hb, by unfold research_job_service; rw [hb]⟩

/-- C6: re-running research on an existing target overwrites its
research_report and research_chart_data and forces its status back to
`"researching"` (whatever it was, including `planning_done`), while its
validation_plan and action_plan fields are left unchanged. -/
theorem research_rerun_frame (loads : Str → Option JVal) (s : AppState)
    (n raw : Str) (t : CareerTarget)
    (h : findTarget s.targets n mainUser = some t) :
    findTarget (render_mode1_research loads s n (.ok raw)).targets n mainUser =
      some { t with research_report := some (textPart raw),
                    research_chart_data := extract_json_from_llm loads raw,
                    status := sResearching } := by
  have ht : (render_mode1_research loads s n (.ok raw)).targets =
      updateFirst (targetPred n mainUser)
        (fun u => setResearch u (textPart raw) (extract_json_from_llm loads raw))
        s.targets := by
    rw [targets_research_ok, h]
  rw [findTarget, ht]
  rw [find?_updateFirst (targetPred n mainUser)
    (fun u => setResearch u (textPart raw) (extract_json_from_llm loads raw))
    (fun x => rfl)]
  have h' : s.targets.find? (targetPred n mainUser) = some t := h
  rw [h']
  rfl

/-- Witness for C6: re-research on a concrete planning_done target with a
stored validation plan and action plan. -/
theorem research_rerun_frame_witness :
    findTarget (render_mode1_research wloads wstate2 wname (.ok "r".toList)).targets
        wname mainUser =
      some { wtarget with research_report := some (textPart "r".toList),
                          research_chart_data := extract_json_from_llm wloads "r".toList,
                          status := sResearching } :=
  research_rerun_frame wloads wstate2 wname "r".toList wtarget rfl

/-- C7: deleting (abandoning) a target removes only that target: the
progress logs (which reference targets by name) and the chat history are
untouched, and every other target is still stored. -/
theorem delete_target_preserves_logs (s : AppState) (tid : Nat) :
    (delete_target s tid).progress_logs = s.progress_logs
    ∧ (delete_target s tid).chat_history = s.chat_history
    ∧ ∀ t ∈ s.targets, t.id ≠ tid → t ∈ (delete_target s tid).targets := by
  refine ⟨rfl, rfl, ?_⟩
  intro t hmem hne
  exact mem_removeFirst _ _ _ hmem (by simp [hne])

/-- Witness for C7: deleting one of two concrete targets keeps the
progress log and the other target. -/
theorem delete_target_preserves_logs_witness :
    (delete_target wstate3 7).progress_logs = wstate3.progress_logs
    ∧ wtargetB ∈ (delete_target wstate3 7).targets :=
  ⟨(delete_target_preserves_logs wstate3 7).1,
    (delete_target_preserves_logs wstate3 7).2.2 wtargetB
      (List.mem_cons_of_mem _ (List.mem_cons_self _ _)) (by decide)⟩

/-- C8 counterexample: the mode-3 generation guard
(`not target.action_plan or isinstance(target.action_plan, str)`) also
fires on the empty dict `{}`, which is neither an absent action_plan nor a
string-typed legacy value, so "exactly when absent or string-typed" is
false as stated. -/
theorem action_plan_gate_counterexample :
    offers_action_plan_generation (some (JVal.jdict [])) = true
    ∧ absentOrLegacyStr (some (JVal.jdict [])) = false :=
  ⟨rfl, rfl⟩

/-- C8 amended: Mode 3 offers action-plan generation exactly when the
target's action_plan is absent, Python-falsy (such as the empty dict,
empty list, empty string, 0, false or null) or a string-typed legacy
value; on successful generation the step persists the parsed plan and
sets the target's status to `planning_done`. -/
theorem action_plan_gate_amended (loads : Str → Option JVal) (s : AppState)
    (n raw : Str) (t : CareerTarget) (ap : Option JVal)
    (h : findTarget s.targets n mainUser = some t) :
    (offers_action_plan_generation ap = true ↔
      (ap = none ∨ ∃ v, ap = some v ∧ (pyFalsy v = true ∨ JVal.isStr v = true)))
    ∧ findTarget (render_mode3_genplan loads s n (.ok raw)).targets n mainUser =
        some { t with action_plan := extract_json_from_llm loads raw,
                      status := sPlanningDone } := by
  constructor
  · cases ap with
    | none => simp [offers_action_plan_generation]
    | some v => simp [offers_action_plan_generation]
  · rw [findTarget, targets_mode3_ok]
    rw [find?_updateFirst (targetPred n mainUser)
      (fun u => { u with action_plan := extract_json_from_llm loads raw,
                         status := sPlanningDone })
      (fun x => rfl)]
    have h' : s.targets.find? (targetPred n mainUser) = some t := h
    rw [h']
    rfl

/-- Witness for C8 amended: the legacy string `"foo"` triggers generation,
and a concrete generation run persists the parsed plan and the
planning_done status. -/
theorem action_plan_gate_amended_witness :
    (offers_action_plan_generation (some (JVal.jstr "foo".toList)) = true ↔
      (some (JVal.jstr "foo".toList) = none
        ∨ ∃ v, some (JVal.jstr "foo".toList) = some v
            ∧ (pyFalsy v = true ∨ JVal.isStr v = true)))
    ∧ findTarget (render_mode3_genplan wloads wstate2 wname (.ok "p".toList)).targets
        wname mainUser =
      some { wtarget with action_plan := extract_json_from_llm wloads "p".toList,
                          status := sPlanningDone } :=
  action_plan_gate_amended wloads wstate2 wname "p".toList wtarget
    (some (JVal.jstr "foo".toList)) rfl

/-- C9: when the mode-3 LLM response has no extractable JSON, the step
still stores `action_plan = none` and sets the status to `planning_done`,
and the generation guard fires again for an absent plan — so a
planning_done target can lack a structured action plan. -/
theorem planning_done_without_plan (loads : Str → Option JVal) (s : AppState)
    (n raw : Str) (t : CareerTarget)
    (hfind : findTarget s.targets n mainUser = some t)
    (hparse : extract_json_from_llm loads raw = none) :
    findTarget (render_mode3_genplan loads s n (.ok raw)).targets n mainUser =
      some { t with action_plan := none, status := sPlanningDone }
    ∧ offers_action_plan_generation none = true := by
  refine ⟨?_, rfl⟩
  rw [findTarget, targets_mode3_ok]
  rw [find?_updateFirst (targetPred n mainUser)
    (fun u => { u with action_plan := extract_json_from_llm loads raw,
                       status := sPlanningDone })
    (fun x => rfl)]
  have h' : s.targets.find? (targetPred n mainUser) = some t := hfind
  rw [h']
  simp [hparse]

/-- Witness for C9: a concrete run whose response contains no fenced JSON
block. -/
theorem planning_done_without_plan_witness :
    findTarget (render_mode3_genplan wloads wstate2 wname (.ok "x".toList)).targets
        wname mainUser =
      some { wtarget with action_plan := none, status := sPlanningDone }
    ∧ offers_action_plan_generation none = true :=
  planning_done_without_plan wloads wstate2 wname "x".toList wtarget rfl rfl

/-- C10: with search unconfigured, `research_job_service` returns the
fixed unavailable message for every possible LLM behaviour (so the LLM is
never consulted), and the mode-1 research step nonetheless upserts the
target and persists that sentinel text as its research_report, with chart
data `none`, status `"researching"`, and two new chat entries. -/
theorem search_unavailable_persists_sentinel (loads : Str → Option JVal)
    (s : AppState) (n : Str) (outcomes : List (Except Unit (List SearchResult)))
    (llmCall : Str → Except Unit Str)
    (h : findTarget s.targets n mainUser = none) :
    research_job_service true false outcomes llmCall = .ok svcUnavailSearch
    ∧ (∃ t, (render_mode1_research loads s n (.ok svcUnavailSearch)).targets =
          s.targets ++ [t]
        ∧ t.name = n ∧ t.status = sResearching
        ∧ t.research_report = some svcUnavailSearch
        ∧ t.research_chart_data = none)
    ∧ (render_mode1_research loads s n (.ok svcUnavailSearch)).chat_history mode1Key =
        s.chat_history mode1Key ++
          [⟨roleUser, researchHumanMsg n⟩, ⟨roleAssistant, svcUnavailSearch⟩] := by
  have htext : textPart svcUnavailSearch = svcUnavailSearch := by decide
  have hsp : splitFirst opentag svcUnavailSearch = none := by decide
  have hext : extract_json_from_llm loads svcUnavailSearch = none := by
    unfold extract_json_from_llm
    rw [hsp]
  refine ⟨rfl, ?_, ?_⟩
  · refine ⟨setResearch (fresh_target s.nextId n) (textPart svcUnavailSearch)
      (extract_json_from_llm loads svcUnavailSearch), ?_, rfl, rfl, ?_, ?_⟩
    · rw [targets_research_ok, h]
    · simp [setResearch, htext]
    · simp [setResearch, hext]
  · simp only [render_mode1_research, h, update_chat_history]
    rw [htext]
    simp

/-- Witness for C10 on the empty store and a failing LLM client. -/
theorem search_unavailable_persists_sentinel_witness :
    research_job_service true false [] (fun _ => .error ()) = .ok svcUnavailSearch
    ∧ (∃ t, (render_mode1_research wloads wstate wname (.ok svcUnavailSearch)).targets =
          wstate.targets ++ [t]
        ∧ t.name = wname ∧ t.status = sResearching
        ∧ t.research_report = some svcUnavailSearch
        ∧ t.research_chart_data = none)
    ∧ (render_mode1_research wloads wstate wname (.ok svcUnavailSearch)).chat_history
          mode1Key =
        wstate.chat_history mode1Key ++
          [⟨roleUser, researchHumanMsg wname⟩, ⟨roleAssistant, svcUnavailSearch⟩] :=
  search_unavailable_persists_sentinel wloads wstate wname [] (fun _ => .error ()) rfl

end Licheng
